import Mathlib

/-!
Verification of the map-poster data pipeline (src/script.js) against its
natural-language specification.  The JavaScript source is shallowly embedded:
numbers carried by OSM elements are rationals, the node lookup object is a
function `Nat → Option GeoPoint`, network effects are abstracted as an
oracle from endpoint URL to `Except` outcome, and floating-point geometry
(the Mercator projection) is modelled over the real numbers.
-/

open Filter

/-- A geographic point as stored in the node lookup (`{lat, lon}`). -/
structure GeoPoint where
  lat : ℚ
  lon : ℚ
deriving DecidableEq

/-- The tag fields of an OSM element that `parseOSMData` inspects.
A field is `none` when the tag is absent from the element's tag object. -/
structure Tags where
  highway : Option String
  natural : Option String
  waterway : Option String
  leisure : Option String
  landuse : Option String
deriving DecidableEq

/-- JavaScript truthiness of a possibly-absent string-valued tag:
`undefined` and the empty string are falsy, every other string is truthy. -/
def truthy : Option String → Bool
  | none => false
  | some s => !(s == "")

/-- One element of the Overpass `elements` array.  `way` and `relation`
elements may lack their `nodes` list or `tags` object (`none`), matching the
`el.nodes && el.tags` guard in the source. -/
inductive OSMElement where
  | node (id : Nat) (lat lon : ℚ)
  | way (id : Nat) (nodes : Option (List Nat)) (tags : Option Tags)
  | relation (id : Nat) (nodes : Option (List Nat)) (tags : Option Tags)
deriving DecidableEq

/-- The parsed JSON payload of a successful Overpass response. -/
structure OSMData where
  elements : List OSMElement
deriving DecidableEq

/-- One assignment `nodes[el.id] = {lat: el.lat, lon: el.lon}`;
non-node elements leave the lookup unchanged. -/
def nodeStep (acc : Nat → Option GeoPoint) (el : OSMElement) : Nat → Option GeoPoint :=
  match el with
  | OSMElement.node i la lo => fun j => if j = i then some ⟨la, lo⟩ else acc j
  | _ => acc

/-- The node lookup built by the first `forEach` pass of `parseOSMData`. -/
def buildNodes (els : List OSMElement) : Nat → Option GeoPoint :=
  els.foldl nodeStep (fun _ => none)

/-- A classified road (`{type: el.tags.highway, coords}`). -/
structure Road where
  type : String
  coords : List GeoPoint
deriving DecidableEq

/-- The outcome of the categorisation branch of `parseOSMData` for a single
element: which collection (if any) it is pushed onto, with its coordinates. -/
inductive Classified where
  | road (ty : String) (coords : List GeoPoint)
  | waterLine (coords : List GeoPoint)
  | waterPoly (coords : List GeoPoint)
  | park (coords : List GeoPoint)
  | dropped
deriving DecidableEq

/-- The body of the second `forEach` of `parseOSMData`: resolve the way's
member node ids through the lookup (dropping unresolvable ids), discard the
way when fewer than 2 coordinates remain, then categorise by tag precedence
(`highway`, then `natural=water`/`waterway`, then `leisure=park`/
`landuse=grass`), using the closed-ring test `nodes[0] === nodes[len-1]`
to split water into polygons and lines and to require parks to be closed. -/
def classifyElement (nm : Nat → Option GeoPoint) (el : OSMElement) : Classified :=
  match el with
  | OSMElement.way _ (some nodeIds) (some tags) =>
    let coords := nodeIds.filterMap nm
    if coords.length < 2 then Classified.dropped
    else if truthy tags.highway then
      Classified.road (tags.highway.getD "") coords
    else if tags.natural = some "water" ∨ truthy tags.waterway = true then
      if nodeIds.head? = nodeIds.getLast? then Classified.waterPoly coords
      else Classified.waterLine coords
    else if tags.leisure = some "park" ∨ tags.landuse = some "grass" then
      if nodeIds.head? = nodeIds.getLast? then Classified.park coords
      else Classified.dropped
    else Classified.dropped
  | _ => Classified.dropped

/-- The fixed 14-entry road priority table (`roadOrder` in the source). -/
def roadOrder : List String :=
  ["service", "living_street", "unclassified", "residential",
   "tertiary_link", "tertiary", "secondary_link", "secondary",
   "primary_link", "primary", "trunk_link", "trunk",
   "motorway_link", "motorway"]

/-- Index of `ty` in `roadOrder` (JS `indexOf`): first occurrence, `-1` if absent. -/
def roadIndex (ty : String) : Int :=
  match roadOrder.findIdx? (fun s => s == ty) with
  | some i => (i : Int)
  | none => -1

/-- The comparator `(a, b) => roadOrder.indexOf(a.type) - roadOrder.indexOf(b.type)`
viewed as the total preorder it sorts by. -/
def roadLE (a b : Road) : Prop := roadIndex a.type ≤ roadIndex b.type

instance : DecidableRel roadLE := fun _ _ => Int.decLe _ _

instance : IsTotal Road roadLE := ⟨fun _ _ => Int.le_total _ _⟩

instance : IsTrans Road roadLE := ⟨fun _ _ _ hab hbc => le_trans hab hbc⟩

/-- Push a classification outcome onto the accumulated
`(roads, waterWays, waterPolygons, parks)` collections. -/
def pushClassified
    (acc : List Road × List (List GeoPoint) × List (List GeoPoint) × List (List GeoPoint))
    (c : Classified) :
    List Road × List (List GeoPoint) × List (List GeoPoint) × List (List GeoPoint) :=
  match c with
  | Classified.road t cs => (acc.1 ++ [⟨t, cs⟩], acc.2.1, acc.2.2.1, acc.2.2.2)
  | Classified.waterLine cs => (acc.1, acc.2.1 ++ [cs], acc.2.2.1, acc.2.2.2)
  | Classified.waterPoly cs => (acc.1, acc.2.1, acc.2.2.1 ++ [cs], acc.2.2.2)
  | Classified.park cs => (acc.1, acc.2.1, acc.2.2.1, acc.2.2.2 ++ [cs])
  | Classified.dropped => acc

/-- The value returned by `parseOSMData`. -/
structure ParsedData where
  roads : List Road
  waterWays : List (List GeoPoint)
  waterPolygons : List (List GeoPoint)
  parks : List (List GeoPoint)
  nodes : Nat → Option GeoPoint

/-- Function `parseOSMData`: build the node lookup, classify every element in array
order, then sort the roads with the `roadOrder.indexOf` comparator (a stable
sort, as `Array.prototype.sort` is). -/
def parseOSMData (data : OSMData) : ParsedData :=
  let nm := buildNodes data.elements
  let acc := data.elements.foldl (fun a el => pushClassified a (classifyElement nm el))
    ([], [], [], [])
  ⟨List.insertionSort roadLE acc.1, acc.2.1, acc.2.2.1, acc.2.2.2, nm⟩

/-- Projection of `classifyElement` onto the roads collection. -/
def roadOf (nm : Nat → Option GeoPoint) (el : OSMElement) : Option Road :=
  match classifyElement nm el with
  | Classified.road t c => some ⟨t, c⟩
  | _ => none

/-- Projection of `classifyElement` onto the waterWays collection. -/
def lineOf (nm : Nat → Option GeoPoint) (el : OSMElement) : Option (List GeoPoint) :=
  match classifyElement nm el with
  | Classified.waterLine c => some c
  | _ => none

/-- Projection of `classifyElement` onto the waterPolygons collection. -/
def polyOf (nm : Nat → Option GeoPoint) (el : OSMElement) : Option (List GeoPoint) :=
  match classifyElement nm el with
  | Classified.waterPoly c => some c
  | _ => none

/-- Projection of `classifyElement` onto the parks collection. -/
def parkOf (nm : Nat → Option GeoPoint) (el : OSMElement) : Option (List GeoPoint) :=
  match classifyElement nm el with
  | Classified.park c => some c
  | _ => none

lemma classifyFold (nm : Nat → Option GeoPoint) :
    ∀ (els : List OSMElement)
      (acc : List Road × List (List GeoPoint) × List (List GeoPoint) × List (List GeoPoint)),
      els.foldl (fun a el => pushClassified a (classifyElement nm el)) acc
        = (acc.1 ++ els.filterMap (roadOf nm), acc.2.1 ++ els.filterMap (lineOf nm),
           acc.2.2.1 ++ els.filterMap (polyOf nm), acc.2.2.2 ++ els.filterMap (parkOf nm))
  | [], acc => by simp
  | el :: els, acc => by
    rw [List.foldl_cons, classifyFold nm els]
    cases h : classifyElement nm el <;>
      simp [pushClassified, roadOf, lineOf, polyOf, parkOf, h]

lemma parseOSMData_eq (d : OSMData) :
    parseOSMData d =
      ⟨List.insertionSort roadLE (d.elements.filterMap (roadOf (buildNodes d.elements))),
       d.elements.filterMap (lineOf (buildNodes d.elements)),
       d.elements.filterMap (polyOf (buildNodes d.elements)),
       d.elements.filterMap (parkOf (buildNodes d.elements)),
       buildNodes d.elements⟩ := by
  simp only [parseOSMData]
  rw [classifyFold]
  simp

lemma roadIndex_ge (ty : String) : -1 ≤ roadIndex ty := by
  unfold roadIndex
  cases h : roadOrder.findIdx? (fun s => s == ty) with
  | none => simp
  | some i =>
    show -1 ≤ (i : Int)
    omega

/-- C1: the classifier's output road sequence is sorted ascending by the
fixed 14-entry priority table `roadOrder` (via `roadOrder.indexOf`, which
assigns `-1` to subtypes outside the table), so every road whose subtype is
not in the table appears before every road whose subtype is in the table. -/
theorem roads_sorted_by_priority (d : OSMData) :
    List.Sorted roadLE (parseOSMData d).roads ∧
    List.Pairwise (fun a b : Road => roadIndex b.type = -1 → roadIndex a.type = -1)
      (parseOSMData d).roads := by
  have hs : List.Sorted roadLE (parseOSMData d).roads := by
    rw [parseOSMData_eq]
    exact List.sorted_insertionSort roadLE _
  refine ⟨hs, hs.imp ?_⟩
  intro a b hab hb
  have ha := roadIndex_ge a.type
  unfold roadLE at hab
  omega

/-- Witness for C1 at a concrete input. -/
theorem roads_sorted_by_priority_witness :
    List.Sorted roadLE (parseOSMData ⟨[]⟩).roads ∧
    List.Pairwise (fun a b : Road => roadIndex b.type = -1 → roadIndex a.type = -1)
      (parseOSMData ⟨[]⟩).roads :=
  roads_sorted_by_priority ⟨[]⟩

/-- The fixed, ordered Overpass endpoint list (`CONFIG.OVERPASS_SERVERS`). -/
def OVERPASS_SERVERS : List String :=
  ["https://overpass-api.de/api/interpreter",
   "https://overpass.kumi.systems/api/interpreter",
   "https://maps.mail.ru/osm/tools/overpass/api/interpreter"]

/-- The error message thrown after the server loop:
`Failed to fetch map data. Please try again in a moment. (${lastError?.message || 'All servers unavailable'})`.
An absent last error, or one with an empty (falsy) message, yields the
fallback text. -/
def failMsg (lastError : Option String) : String :=
  "Failed to fetch map data. Please try again in a moment. (" ++
    (match lastError with
     | some m => if m = "" then "All servers unavailable" else m
     | none => "All servers unavailable") ++ ")"

/-- The `for (const serverUrl of ...)` loop of `fetchOSMData`.  `respond`
abstracts one network attempt against an endpoint: `Except.error e` covers a
non-success status, a transport error, or a payload that fails to parse
(each of which the source catches and records in `lastError`), and
`Except.ok d` covers a success whose JSON parsed as `d`.  Besides the
result, the list of endpoints actually called is returned, in call order. -/
def fetchAttempts (respond : String → Except String OSMData) :
    List String → Option String → Except String ParsedData × List String
  | [], lastError => (Except.error (failMsg lastError), [])
  | url :: rest, _ =>
    match respond url with
    | Except.ok d => (Except.ok (parseOSMData d), [url])
    | Except.error e =>
      let r := fetchAttempts respond rest (some e)
      (r.1, url :: r.2)

/-- Function `fetchOSMData`: run the attempt loop over the fixed endpoint list with no
error recorded yet. -/
def fetchOSMData (respond : String → Except String OSMData) :
    Except String ParsedData × List String :=
  fetchAttempts respond OVERPASS_SERVERS none

lemma fetchAttempts_first_ok (respond : String → Except String OSMData) (d : OSMData) :
    ∀ (pre : List String) (url : String) (post : List String) (le : Option String),
      (∀ u ∈ pre, ∃ e, respond u = Except.error e) → respond url = Except.ok d →
      fetchAttempts respond (pre ++ url :: post) le = (Except.ok (parseOSMData d), pre ++ [url])
  | [], url, post, le, _, hok => by simp [fetchAttempts, hok]
  | p :: pre, url, post, le, hpre, hok => by
    obtain ⟨e, he⟩ := hpre p (by simp)
    have ih := fetchAttempts_first_ok respond d pre url post (some e)
      (fun u hu => hpre u (by simp [hu])) hok
    simp [fetchAttempts, he, ih]

lemma fetchAttempts_all_fail (respond : String → Except String OSMData) (e : String) :
    ∀ (pre : List String) (url : String) (le : Option String),
      (∀ u ∈ pre, ∃ e', respond u = Except.error e') → respond url = Except.error e →
      fetchAttempts respond (pre ++ [url]) le = (Except.error (failMsg (some e)), pre ++ [url])
  | [], url, le, _, herr => by simp [fetchAttempts, herr]
  | p :: pre, url, le, hpre, herr => by
    obtain ⟨e', he'⟩ := hpre p (by simp)
    have ih := fetchAttempts_all_fail respond e pre url (some e')
      (fun u hu => hpre u (by simp [hu])) herr
    simp [fetchAttempts, he', ih]

/-- C2: the region fetch tries the fixed endpoint list strictly in order.
If the endpoints strictly before `url` in the list all fail and `url`
succeeds with payload `d`, the result is the parsed payload of `url` and the
endpoints called are exactly the failing prefix followed by `url` — no later
endpoint is called.  If every endpoint fails, the result is the single
composite error carrying the message recorded from the last endpoint. -/
theorem fetch_failover (respond : String → Except String OSMData) :
    (∀ (pre post : List String) (url : String) (d : OSMData),
      OVERPASS_SERVERS = pre ++ url :: post →
      (∀ u ∈ pre, ∃ e, respond u = Except.error e) →
      respond url = Except.ok d →
      fetchOSMData respond = (Except.ok (parseOSMData d), pre ++ [url])) ∧
    (∀ (pre : List String) (url : String) (e : String),
      OVERPASS_SERVERS = pre ++ [url] →
      (∀ u ∈ pre, ∃ e', respond u = Except.error e') →
      respond url = Except.error e →
      fetchOSMData respond = (Except.error (failMsg (some e)), OVERPASS_SERVERS)) := by
  constructor
  · intro pre post url d hsplit hpre hok
    unfold fetchOSMData
    rw [hsplit]
    exact fetchAttempts_first_ok respond d pre url post none hpre hok
  · intro pre url e hsplit hpre herr
    unfold fetchOSMData
    rw [hsplit]
    exact fetchAttempts_all_fail respond e pre url none hpre herr

/-- A concrete network oracle: the first endpoint fails, the others serve an
empty region. -/
def respondW : String → Except String OSMData := fun u =>
  if u = "https://overpass-api.de/api/interpreter" then Except.error "Server returned 504"
  else Except.ok ⟨[]⟩

/-- Witness for C2: the first endpoint fails, the second succeeds, and the
third is never called. -/
theorem fetch_failover_witness :
    fetchOSMData respondW =
      (Except.ok (parseOSMData ⟨[]⟩),
       ["https://overpass-api.de/api/interpreter",
        "https://overpass.kumi.systems/api/interpreter"]) :=
  (fetch_failover respondW).1 ["https://overpass-api.de/api/interpreter"]
    ["https://maps.mail.ru/osm/tools/overpass/api/interpreter"]
    "https://overpass.kumi.systems/api/interpreter" ⟨[]⟩ rfl
    (by
      intro u hu
      simp only [List.mem_singleton] at hu
      subst hu
      exact ⟨"Server returned 504", rfl⟩)
    rfl

/-- The hardcoded fallback theme of `loadTheme`, as the key-value pairs of
the object literal in the source. -/
def fallbackTheme : List (String × String) :=
  [("name", "Default"), ("bg", "#FFFFFF"), ("text", "#000000"),
   ("gradient_color", "#FFFFFF"), ("water", "#C0C0C0"), ("parks", "#F0F0F0"),
   ("road_motorway", "#0A0A0A"), ("road_primary", "#1A1A1A"),
   ("road_secondary", "#2A2A2A"), ("road_tertiary", "#3A3A3A"),
   ("road_residential", "#4A4A4A"), ("road_default", "#3A3A3A")]

/-- Function `loadTheme`: the fetched theme JSON is modelled as the key-value pairs of
the parsed object (`Except.ok`), or `Except.error` when the fetch returned a
non-ok status or the payload failed to parse (the cases the `catch` block
handles).  On success the parsed object is stored as-is — the source
performs no validation of its keys; on failure the error is logged and the
whole hardcoded fallback theme is used instead.  The function is total:
theme-load failure never aborts the pipeline. -/
def loadTheme : Except String (List (String × String)) → List (String × String)
  | Except.ok t => t
  | Except.error _ => fallbackTheme

/-- A parsed theme object that is missing the required `water` key. -/
def themeMissingWater : List (String × String) :=
  [("name", "NoWater"), ("bg", "#123456"), ("text", "#654321")]

/-- Counterexample to C3: a theme whose parsed object is missing the
required `water` key is *not* replaced by the fallback theme — `loadTheme`
stores the parsed object unchanged, with no `water` entry at all. -/
theorem loadTheme_missing_key_counterexample :
    loadTheme (Except.ok themeMissingWater) = themeMissingWater ∧
    (loadTheme (Except.ok themeMissingWater)).lookup "water" = none ∧
    fallbackTheme.lookup "water" = some "#C0C0C0" ∧
    loadTheme (Except.ok themeMissingWater) ≠ fallbackTheme :=
  ⟨rfl, by decide, by decide, by decide⟩

/-- C3 (amended): theme loading performs no key validation.  The whole fixed
fallback theme replaces the theme (never a partial merge) exactly when the
theme fetch fails or its payload does not parse; a parsed object — even one
missing required keys — is used as-is.  `loadTheme` is total, so the failure
is non-fatal and the pipeline proceeds. -/
theorem loadTheme_fallback_only_on_error :
    (∀ e, loadTheme (Except.error e) = fallbackTheme) ∧
    (∀ t, loadTheme (Except.ok t) = t) :=
  ⟨fun _ => rfl, fun _ => rfl⟩

lemma classifyElement_way (nm : Nat → Option GeoPoint) (i : Nat) (ids : List Nat) (tags : Tags) :
    classifyElement nm (OSMElement.way i (some ids) (some tags)) =
      if (ids.filterMap nm).length < 2 then Classified.dropped
      else if truthy tags.highway then
        Classified.road (tags.highway.getD "") (ids.filterMap nm)
      else if tags.natural = some "water" ∨ truthy tags.waterway = true then
        (if ids.head? = ids.getLast? then Classified.waterPoly (ids.filterMap nm)
         else Classified.waterLine (ids.filterMap nm))
      else if tags.leisure = some "park" ∨ tags.landuse = some "grass" then
        (if ids.head? = ids.getLast? then Classified.park (ids.filterMap nm)
         else Classified.dropped)
      else Classified.dropped := rfl

/-- C4: a way whose first member node id differs from its last is never
placed in a polygon category: a water-tagged open way becomes a water line
(never a water polygon), an open park candidate is discarded entirely, and
conversely a way classified into a polygon category (water polygon or park)
always has identical first and last member node ids — the closed-ring test
`nodes[0] === nodes[len-1]` alone decides polygonhood. -/
theorem open_way_never_polygon (nm : Nat → Option GeoPoint) (i : Nat) (ids : List Nat)
    (tags : Tags) :
    (ids.head? ≠ ids.getLast? →
      (∀ c, classifyElement nm (OSMElement.way i (some ids) (some tags))
          ≠ Classified.waterPoly c) ∧
      (∀ c, classifyElement nm (OSMElement.way i (some ids) (some tags))
          ≠ Classified.park c) ∧
      (truthy tags.highway = false →
        (tags.natural = some "water" ∨ truthy tags.waterway = true) →
        2 ≤ (ids.filterMap nm).length →
        classifyElement nm (OSMElement.way i (some ids) (some tags))
          = Classified.waterLine (ids.filterMap nm)) ∧
      (truthy tags.highway = false →
        ¬(tags.natural = some "water" ∨ truthy tags.waterway = true) →
        (tags.leisure = some "park" ∨ tags.landuse = some "grass") →
        classifyElement nm (OSMElement.way i (some ids) (some tags))
          = Classified.dropped)) ∧
    (∀ c, classifyElement nm (OSMElement.way i (some ids) (some tags))
            = Classified.waterPoly c ∨
          classifyElement nm (OSMElement.way i (some ids) (some tags))
            = Classified.park c →
          ids.head? = ids.getLast?) := by
  rw [classifyElement_way]
  split_ifs <;> simp_all

/-- A concrete node lookup resolving ids 1 and 2 only. -/
def nmW : Nat → Option GeoPoint := fun n =>
  if n = 1 then some ⟨0, 0⟩ else if n = 2 then some ⟨1, 1⟩ else none

/-- A tag set carrying only `natural=water`. -/
def waterTags : Tags := ⟨none, some "water", none, none, none⟩

/-- Witness for C4: an open two-node `natural=water` way becomes a water line. -/
theorem open_way_never_polygon_witness :
    classifyElement nmW (OSMElement.way 7 (some [1, 2]) (some waterTags))
      = Classified.waterLine (([1, 2] : List Nat).filterMap nmW) :=
  ((open_way_never_polygon nmW 7 [1, 2] waterTags).1 (by decide)).2.2.1
    (by decide) (by decide) (by decide)

/-- The tag set of the §8 scenario way (`{highway: "primary"}`). -/
def scenarioTags : Tags := ⟨some "primary", none, none, none, none⟩

/-- The §8 scenario input region:
`{elements: [{node 1, lat 52.0, lon 13.0}, {node 2, lat 52.01, lon 13.01}, {way, nodes:[1,2], tags:{highway:"primary"}}]}`. -/
def scenarioData : OSMData :=
  ⟨[OSMElement.node 1 52.0 13.0, OSMElement.node 2 52.01 13.01,
    OSMElement.way 3 (some [1, 2]) (some scenarioTags)]⟩

/-- C5: tag precedence with first match winning, checked in source order: a
way with a (truthy) `highway` tag becomes a road with subtype the highway
value — even if water or park tags are also present (the quantification over
`tags` leaves all other tag fields free); otherwise `natural=water` or a
`waterway` tag makes it a water feature; otherwise `leisure=park` or
`landuse=grass` makes it a park candidate.  Moreover the §8 scenario input
yields exactly one road, subtype `primary`, with its 2 points, and no water
or park output. -/
theorem tag_precedence (nm : Nat → Option GeoPoint) (i : Nat) (ids : List Nat) (tags : Tags) :
    (2 ≤ (ids.filterMap nm).length →
      ((∀ h, tags.highway = some h → h ≠ "" →
         classifyElement nm (OSMElement.way i (some ids) (some tags))
           = Classified.road h (ids.filterMap nm)) ∧
       (truthy tags.highway = false →
         (tags.natural = some "water" ∨ truthy tags.waterway = true) →
         classifyElement nm (OSMElement.way i (some ids) (some tags))
             = Classified.waterPoly (ids.filterMap nm) ∨
           classifyElement nm (OSMElement.way i (some ids) (some tags))
             = Classified.waterLine (ids.filterMap nm)) ∧
       (truthy tags.highway = false →
         ¬(tags.natural = some "water" ∨ truthy tags.waterway = true) →
         (tags.leisure = some "park" ∨ tags.landuse = some "grass") →
         classifyElement nm (OSMElement.way i (some ids) (some tags))
             = Classified.park (ids.filterMap nm) ∨
           classifyElement nm (OSMElement.way i (some ids) (some tags))
             = Classified.dropped))) ∧
    ((parseOSMData scenarioData).roads = [⟨"primary", [⟨52.0, 13.0⟩, ⟨52.01, 13.01⟩]⟩] ∧
     (parseOSMData scenarioData).waterWays = [] ∧
     (parseOSMData scenarioData).waterPolygons = [] ∧
     (parseOSMData scenarioData).parks = []) := by
  constructor
  · intro hlen
    rw [classifyElement_way, if_neg (Nat.not_lt.mpr hlen)]
    refine ⟨?_, ?_, ?_⟩
    · intro h hh hne
      simp [hh, truthy, hne]
    · intro hf hw
      simp only [hf, Bool.false_eq_true, if_false, if_pos hw]
      split_ifs <;> simp
    · intro hf hw hp
      simp only [hf, Bool.false_eq_true, if_false, if_neg hw, if_pos hp]
      split_ifs <;> simp
  · exact ⟨rfl, rfl, rfl, rfl⟩

/-- A tag set where `highway` coexists with water and park tags. -/
def roadParkTags : Tags := ⟨some "primary", some "water", none, some "park", none⟩

/-- Witness for C5: `highway=primary` wins over simultaneously present water
and park tags. -/
theorem tag_precedence_witness :
    classifyElement nmW (OSMElement.way 7 (some [1, 2]) (some roadParkTags))
      = Classified.road "primary" (([1, 2] : List Nat).filterMap nmW) :=
  ((tag_precedence nmW 7 [1, 2] roadParkTags).1 (by decide)).1 "primary" rfl (by decide)

lemma foldl_nodeStep_filter (p : OSMElement → Bool)
    (hp : ∀ i la lo, p (OSMElement.node i la lo) = true) :
    ∀ (els : List OSMElement) (acc : Nat → Option GeoPoint),
      (els.filter p).foldl nodeStep acc = els.foldl nodeStep acc
  | [], _ => rfl
  | el :: els, acc => by
    cases el with
    | node i la lo =>
      simp [List.filter_cons, hp i la lo, foldl_nodeStep_filter p hp els]
    | way i ns ts =>
      cases hq : p (OSMElement.way i ns ts) <;>
        simp [List.filter_cons, hq, nodeStep, foldl_nodeStep_filter p hp els]
    | relation i ns ts =>
      cases hq : p (OSMElement.relation i ns ts) <;>
        simp [List.filter_cons, hq, nodeStep, foldl_nodeStep_filter p hp els]

lemma buildNodes_filter (p : OSMElement → Bool)
    (hp : ∀ i la lo, p (OSMElement.node i la lo) = true) (els : List OSMElement) :
    buildNodes (els.filter p) = buildNodes els :=
  foldl_nodeStep_filter p hp els _

lemma filterMap_filter_of_none {α : Type} (f : OSMElement → Option α) (p : OSMElement → Bool)
    (h : ∀ el, p el = false → f el = none) :
    ∀ els : List OSMElement, (els.filter p).filterMap f = els.filterMap f
  | [] => rfl
  | el :: els => by
    cases hq : p el
    · simp [List.filter_cons, hq, List.filterMap_cons, h el hq,
        filterMap_filter_of_none f p h els]
    · simp [List.filter_cons, hq, List.filterMap_cons, filterMap_filter_of_none f p h els]

lemma parse_filter_invariant (p : OSMElement → Bool)
    (hpnode : ∀ i la lo, p (OSMElement.node i la lo) = true)
    (els : List OSMElement)
    (hdrop : ∀ el, p el = false → classifyElement (buildNodes els) el = Classified.dropped) :
    (parseOSMData ⟨els⟩).roads = (parseOSMData ⟨els.filter p⟩).roads ∧
    (parseOSMData ⟨els⟩).waterWays = (parseOSMData ⟨els.filter p⟩).waterWays ∧
    (parseOSMData ⟨els⟩).waterPolygons = (parseOSMData ⟨els.filter p⟩).waterPolygons ∧
    (parseOSMData ⟨els⟩).parks = (parseOSMData ⟨els.filter p⟩).parks := by
  rw [parseOSMData_eq, parseOSMData_eq]
  dsimp only
  rw [buildNodes_filter p hpnode els]
  rw [filterMap_filter_of_none (roadOf (buildNodes els)) p
      (fun el hel => by simp [roadOf, hdrop el hel]) els,
    filterMap_filter_of_none (lineOf (buildNodes els)) p
      (fun el hel => by simp [lineOf, hdrop el hel]) els,
    filterMap_filter_of_none (polyOf (buildNodes els)) p
      (fun el hel => by simp [polyOf, hdrop el hel]) els,
    filterMap_filter_of_none (parkOf (buildNodes els)) p
      (fun el hel => by simp [parkOf, hdrop el hel]) els]
  exact ⟨rfl, rfl, rfl, rfl⟩

/-- Does the resolution step of `parseOSMData` leave this way with fewer
than 2 coordinates? -/
def isShortWay (nm : Nat → Option GeoPoint) (el : OSMElement) : Bool :=
  match el with
  | OSMElement.way _ (some ids) (some _) => decide ((ids.filterMap nm).length < 2)
  | _ => false

/-- C6: a way with fewer than 2 points after node lookup contributes nothing
to any output category — its classification is `dropped`, and removing all
such ways from the input leaves all four output collections unchanged. -/
theorem short_way_dropped :
    (∀ (nm : Nat → Option GeoPoint) (i : Nat) (ids : List Nat) (tags : Tags),
      (ids.filterMap nm).length < 2 →
      classifyElement nm (OSMElement.way i (some ids) (some tags)) = Classified.dropped) ∧
    (∀ els : List OSMElement,
      (parseOSMData ⟨els⟩).roads
          = (parseOSMData ⟨els.filter (fun el => !isShortWay (buildNodes els) el)⟩).roads ∧
      (parseOSMData ⟨els⟩).waterWays
          = (parseOSMData ⟨els.filter (fun el => !isShortWay (buildNodes els) el)⟩).waterWays ∧
      (parseOSMData ⟨els⟩).waterPolygons
          = (parseOSMData ⟨els.filter (fun el =>
              !isShortWay (buildNodes els) el)⟩).waterPolygons ∧
      (parseOSMData ⟨els⟩).parks
          = (parseOSMData ⟨els.filter (fun el => !isShortWay (buildNodes els) el)⟩).parks) := by
  have hshort : ∀ (nm : Nat → Option GeoPoint) (i : Nat) (ids : List Nat) (tags : Tags),
      (ids.filterMap nm).length < 2 →
      classifyElement nm (OSMElement.way i (some ids) (some tags)) = Classified.dropped := by
    intro nm i ids tags hlen
    rw [classifyElement_way, if_pos hlen]
  refine ⟨hshort, fun els => ?_⟩
  refine parse_filter_invariant _ (fun i la lo => by simp [isShortWay]) els ?_
  intro el hel
  simp only [Bool.not_eq_false'] at hel
  match el, hel with
  | OSMElement.way i (some ids) (some tags), hel =>
    exact hshort _ i ids tags (by simpa [isShortWay] using hel)

/-- Witness for C6: a way with a single resolvable node is dropped. -/
theorem short_way_dropped_witness :
    classifyElement nmW (OSMElement.way 7 (some [1, 99]) (some scenarioTags))
      = Classified.dropped :=
  short_way_dropped.1 nmW 7 [1, 99] scenarioTags (by decide)

/-- Is this element a relation? -/
def isRelationEl : OSMElement → Bool
  | OSMElement.relation _ _ _ => true
  | _ => false

/-- C9: classification produces geometry only from `way` elements carrying
both a member-node list and a tag object; every other element — in
particular every relation, whatever its tags — classifies as `dropped`, and
removing all relations from the input leaves all four output collections
unchanged. -/
theorem relations_contribute_nothing :
    (∀ (nm : Nat → Option GeoPoint) (el : OSMElement),
      (∀ (i : Nat) (ids : List Nat) (tags : Tags),
        el ≠ OSMElement.way i (some ids) (some tags)) →
      classifyElement nm el = Classified.dropped) ∧
    (∀ els : List OSMElement,
      (parseOSMData ⟨els⟩).roads
          = (parseOSMData ⟨els.filter (fun el => !isRelationEl el)⟩).roads ∧
      (parseOSMData ⟨els⟩).waterWays
          = (parseOSMData ⟨els.filter (fun el => !isRelationEl el)⟩).waterWays ∧
      (parseOSMData ⟨els⟩).waterPolygons
          = (parseOSMData ⟨els.filter (fun el => !isRelationEl el)⟩).waterPolygons ∧
      (parseOSMData ⟨els⟩).parks
          = (parseOSMData ⟨els.filter (fun el => !isRelationEl el)⟩).parks) := by
  constructor
  · intro nm el hne
    match el with
    | OSMElement.node _ _ _ => rfl
    | OSMElement.relation _ _ _ => rfl
    | OSMElement.way i none ts => rfl
    | OSMElement.way i (some ids) none => rfl
    | OSMElement.way i (some ids) (some tags) => exact absurd rfl (hne i ids tags)
  · intro els
    refine parse_filter_invariant _ (fun i la lo => by simp [isRelationEl]) els ?_
    intro el hel
    simp only [Bool.not_eq_false'] at hel
    match el, hel with
    | OSMElement.relation i ns ts, _ => rfl

/-- Witness for C9: a `natural=water` relation contributes nothing. -/
theorem relations_contribute_nothing_witness :
    classifyElement nmW (OSMElement.relation 5 (some [1, 2]) (some waterTags))
      = Classified.dropped :=
  relations_contribute_nothing.1 nmW (OSMElement.relation 5 (some [1, 2]) (some waterTags))
    (fun _ _ _ h => OSMElement.noConfusion h)

/-- C10: each non-road output collection is a `filterMap` of the input
element array — an order-preserving selection, so the relative input order
of the ways is preserved within water lines, water polygons and parks — and
every classified geometry's point sequence is exactly its way's member node
ids resolved through the lookup in original order, with only the
unresolvable ids removed (`ids.filterMap nm`). -/
theorem nonroad_order_preserved :
    (∀ els : List OSMElement,
      (parseOSMData ⟨els⟩).waterWays = els.filterMap (lineOf (buildNodes els)) ∧
      (parseOSMData ⟨els⟩).waterPolygons = els.filterMap (polyOf (buildNodes els)) ∧
      (parseOSMData ⟨els⟩).parks = els.filterMap (parkOf (buildNodes els))) ∧
    (∀ (nm : Nat → Option GeoPoint) (i : Nat) (ids : List Nat) (tags : Tags)
      (c : List GeoPoint),
      (classifyElement nm (OSMElement.way i (some ids) (some tags))
          = Classified.waterLine c ∨
       classifyElement nm (OSMElement.way i (some ids) (some tags))
          = Classified.waterPoly c ∨
       classifyElement nm (OSMElement.way i (some ids) (some tags))
          = Classified.park c ∨
       (∃ t, classifyElement nm (OSMElement.way i (some ids) (some tags))
          = Classified.road t c)) →
      c = ids.filterMap nm) := by
  constructor
  · intro els
    rw [parseOSMData_eq]
    exact ⟨rfl, rfl, rfl⟩
  · intro nm i ids tags c hc
    rw [classifyElement_way] at hc
    split_ifs at hc <;> simp_all

/-- Witness for C10: the water line's points are the resolved member nodes
in order. -/
theorem nonroad_order_preserved_witness :
    [(⟨0, 0⟩ : GeoPoint), ⟨1, 1⟩] = ([1, 2] : List Nat).filterMap nmW :=
  nonroad_order_preserved.2 nmW 7 [1, 2] waterTags [⟨0, 0⟩, ⟨1, 1⟩] (Or.inl (by decide))

/-- The decimal digit character for `n < 10`. -/
def digitChar (n : Nat) : Char := Char.ofNat (48 + n)

/-- The four digits after the decimal point, zero-padded. -/
def frac4 (f : Nat) : String :=
  String.mk [digitChar (f / 1000 % 10), digitChar (f / 100 % 10),
             digitChar (f / 10 % 10), digitChar (f % 10)]

/-- JS `x.toFixed(4)` for a nonnegative number `x`: round to the nearest
multiple of `10^-4` (ties away from zero, i.e. upward for nonnegative
input), then print the integer part, a point, and exactly four fraction
digits. -/
def toFixed4 (q : ℚ) : String :=
  let n : Nat := (⌊q * 10000 + 1 / 2⌋).toNat
  toString (n / 10000) ++ "." ++ frac4 (n % 10000)

/-- The coordinate string of `drawTypography`:
`` `${Math.abs(lat).toFixed(4)}° ${latDir} / ${Math.abs(lon).toFixed(4)}° ${lonDir}` ``
with `latDir = lat >= 0 ? 'N' : 'S'` and `lonDir = lon >= 0 ? 'E' : 'W'`. -/
def coordsText (lat lon : ℚ) : String :=
  let latDir := if lat ≥ 0 then "N" else "S"
  let lonDir := if lon ≥ 0 then "E" else "W"
  toFixed4 |lat| ++ "° " ++ latDir ++ " / " ++ toFixed4 |lon| ++ "° " ++ lonDir

/-- Built from the claim's words, to be compared against `coordsText`: the
absolute latitude formatted to 4 decimal places, a degree sign, `N` when the
latitude is non-negative and `S` otherwise, then ` / `, then the absolute
longitude formatted to 4 decimal places, a degree sign, and `E` when the
longitude is non-negative and `W` otherwise. -/
def specCoordString (lat lon : ℚ) : String :=
  toFixed4 |lat| ++ "° " ++ (if 0 ≤ lat then "N" else "S") ++ " / " ++
    toFixed4 |lon| ++ "° " ++ (if 0 ≤ lon then "E" else "W")

/-- C8: for every latitude and longitude the rendered coordinate string has
exactly the claimed shape, illustrated on a north-east and a south-west
concrete pair (showing the 4-decimal zero-padded formatting). -/
theorem coords_format :
    (∀ lat lon : ℚ, coordsText lat lon = specCoordString lat lon) ∧
    coordsText 52.52 13.405 = "52.5200° N / 13.4050° E" ∧
    coordsText (-33.8688) (-70.6693) = "33.8688° S / 70.6693° W" := by
  refine ⟨fun lat lon => rfl, ?_, ?_⟩
  · have h1 : |(52.52 : ℚ)| = 52.52 := abs_of_nonneg (by norm_num)
    have h2 : |(13.405 : ℚ)| = 13.405 := abs_of_nonneg (by norm_num)
    simp only [coordsText, h1, h2, if_pos (show (52.52 : ℚ) ≥ 0 by norm_num),
      if_pos (show (13.405 : ℚ) ≥ 0 by norm_num)]
    norm_num [toFixed4]
    decide
  · have h1 : |(-33.8688 : ℚ)| = 33.8688 := by
      rw [abs_neg]
      exact abs_of_nonneg (by norm_num)
    have h2 : |(-70.6693 : ℚ)| = 70.6693 := by
      rw [abs_neg]
      exact abs_of_nonneg (by norm_num)
    simp only [coordsText, h1, h2, if_neg (show ¬((-33.8688 : ℚ) ≥ 0) by norm_num),
      if_neg (show ¬((-70.6693 : ℚ) ≥ 0) by norm_num)]
    norm_num [toFixed4]
    decide

/-- The Mercator vertical transform `latToY` of `createProjection`:
`log(tan(π/4 + latRad/2))` with `latRad = lat * π / 180`. -/
noncomputable def latToY (lat : ℝ) : ℝ :=
  Real.log (Real.tan (Real.pi / 4 + lat * Real.pi / 180 / 2))

/-- Function `createProjection`: bounds from the flat-earth approximation
(111320 meters per degree of latitude, scaled by `cos` of the center
latitude for longitude), a linear horizontal interpolation and a Mercator
vertical interpolation, inverted so north renders toward the top. -/
noncomputable def createProjection
    (centerLat centerLon radiusMeters canvasWidth canvasHeight : ℝ) : ℝ → ℝ → ℝ × ℝ :=
  let metersPerDegreeLat : ℝ := 111320
  let metersPerDegreeLon : ℝ := 111320 * Real.cos (centerLat * Real.pi / 180)
  let latRadius := radiusMeters / metersPerDegreeLat
  let lonRadius := radiusMeters / metersPerDegreeLon
  let minLat := centerLat - latRadius
  let maxLat := centerLat + latRadius
  let minLon := centerLon - lonRadius
  let maxLon := centerLon + lonRadius
  let minY := latToY minLat
  let maxY := latToY maxLat
  fun lat lon =>
    (((lon - minLon) / (maxLon - minLon)) * canvasWidth,
     canvasHeight - ((latToY lat - minY) / (maxY - minY)) * canvasHeight)

lemma createProjection_x (clat clon r w h lat lon : ℝ) :
    (createProjection clat clon r w h lat lon).1 =
      (lon - (clon - r / (111320 * Real.cos (clat * Real.pi / 180)))) /
        ((clon + r / (111320 * Real.cos (clat * Real.pi / 180))) -
         (clon - r / (111320 * Real.cos (clat * Real.pi / 180)))) * w := rfl

lemma createProjection_y (clat clon r w h lat lon : ℝ) :
    (createProjection clat clon r w h lat lon).2 =
      h - (latToY lat - latToY (clat - r / 111320)) /
          (latToY (clat + r / 111320) - latToY (clat - r / 111320)) * h := rfl

/-- C7: for a center latitude strictly inside (-90, 90) and positive surface
dimensions, projecting the exact center yields x exactly `width/2` for every
positive radius, and the y coordinate tends to `height/2` as the radius
tends to 0 from above — the "within rounding tolerance of
(width/2, height/2)" guarantee for regions small relative to Earth's radius
(the Mercator vertical interpolation makes y only approximately, not
exactly, `height/2` at positive radii). -/
theorem createProjection_center (clat clon w h : ℝ)
    (h1 : -90 < clat) (h2 : clat < 90) (hw : 0 < w) (hh : 0 < h) :
    (∀ r : ℝ, 0 < r → (createProjection clat clon r w h clat clon).1 = w / 2) ∧
    Tendsto (fun r => (createProjection clat clon r w h clat clon).2)
      (nhdsWithin 0 (Set.Ioi 0)) (nhds (h / 2)) := by
  have hpi := Real.pi_pos
  have hmul1 : -90 * Real.pi < clat * Real.pi := mul_lt_mul_of_pos_right h1 hpi
  have hmul2 : clat * Real.pi < 90 * Real.pi := mul_lt_mul_of_pos_right h2 hpi
  have hcos : 0 < Real.cos (clat * Real.pi / 180) := by
    apply Real.cos_pos_of_mem_Ioo
    constructor
    · linarith
    · linarith
  constructor
  · intro r hr
    rw [createProjection_x]
    have hL : 0 < r / (111320 * Real.cos (clat * Real.pi / 180)) :=
      div_pos hr (mul_pos (by norm_num) hcos)
    set L := r / (111320 * Real.cos (clat * Real.pi / 180)) with hLdef
    have e1 : clon - (clon - L) = L := by ring
    have e2 : clon + L - (clon - L) = 2 * L := by ring
    rw [e1, e2, mul_comm 2 L, div_mul_eq_div_div, div_self (ne_of_gt hL)]
    ring
  · obtain ⟨D, hDpos, hY⟩ : ∃ D : ℝ, 0 < D ∧ HasDerivAt latToY D clat := by
      have hu0 : 0 < Real.pi / 4 + clat * Real.pi / 180 / 2 := by linarith
      have huh : Real.pi / 4 + clat * Real.pi / 180 / 2 < Real.pi / 2 := by linarith
      have hcosu : 0 < Real.cos (Real.pi / 4 + clat * Real.pi / 180 / 2) :=
        Real.cos_pos_of_mem_Ioo ⟨by linarith, huh⟩
      have htanu : 0 < Real.tan (Real.pi / 4 + clat * Real.pi / 180 / 2) :=
        Real.tan_pos_of_pos_of_lt_pi_div_two hu0 huh
      have hphi : HasDerivAt (fun l : ℝ => Real.pi / 4 + l * Real.pi / 180 / 2)
          (1 * Real.pi / 180 / 2) clat :=
        ((((hasDerivAt_id clat).mul_const Real.pi).div_const 180).div_const 2).const_add
          (Real.pi / 4)
      refine ⟨(Real.tan (Real.pi / 4 + clat * Real.pi / 180 / 2))⁻¹ *
          (1 / Real.cos (Real.pi / 4 + clat * Real.pi / 180 / 2) ^ 2 *
            (1 * Real.pi / 180 / 2)),
        mul_pos (inv_pos.mpr htanu)
          (mul_pos (div_pos one_pos (pow_pos hcosu 2)) (by positivity)), ?_⟩
      have hcomp := (Real.hasDerivAt_log (ne_of_gt htanu)).comp clat
        ((Real.hasDerivAt_tan (ne_of_gt hcosu)).comp clat hphi)
      simpa [latToY, Function.comp] using hcomp
    have tB : Tendsto (fun s : ℝ => s⁻¹ * (latToY (clat + s) - latToY clat))
        (nhdsWithin 0 (Set.Ioi 0)) (nhds D) := by
      simpa [smul_eq_mul] using hY.tendsto_slope_zero_right
    have hG : HasDerivAt (fun s : ℝ => latToY (clat - s)) (-D) 0 := by
      have hinner : HasDerivAt (fun s : ℝ => clat - s) (-1) 0 :=
        (hasDerivAt_id 0).const_sub clat
      have hYat : HasDerivAt latToY D (clat - 0) := by rw [sub_zero]; exact hY
      have hcomp2 := hYat.comp 0 hinner
      simpa [Function.comp, mul_neg_one] using hcomp2
    have tA : Tendsto (fun s : ℝ => s⁻¹ * (latToY (clat - s) - latToY clat))
        (nhdsWithin 0 (Set.Ioi 0)) (nhds (-D)) := by
      simpa [smul_eq_mul] using hG.tendsto_slope_zero_right
    have tNum : Tendsto (fun s : ℝ => (latToY clat - latToY (clat - s)) / s)
        (nhdsWithin 0 (Set.Ioi 0)) (nhds D) := by
      have hneg := tA.neg
      rw [neg_neg] at hneg
      refine hneg.congr fun s => ?_
      ring
    have tDen : Tendsto (fun s : ℝ => (latToY (clat + s) - latToY (clat - s)) / s)
        (nhdsWithin 0 (Set.Ioi 0)) (nhds (2 * D)) := by
      have hsub := tB.sub tA
      have hDD : D - -D = 2 * D := by ring
      rw [hDD] at hsub
      refine hsub.congr fun s => ?_
      ring
    have h2D : (2 : ℝ) * D ≠ 0 := by positivity
    have tF : Tendsto (fun s : ℝ =>
        (latToY clat - latToY (clat - s)) / (latToY (clat + s) - latToY (clat - s)))
        (nhdsWithin 0 (Set.Ioi 0)) (nhds (1 / 2)) := by
      have hdiv := tNum.div tDen h2D
      have hDd : D / (2 * D) = 1 / 2 := by
        rw [mul_comm, div_mul_eq_div_div, div_self (ne_of_gt hDpos)]
      rw [hDd] at hdiv
      refine hdiv.congr' ?_
      filter_upwards [self_mem_nhdsWithin] with s hs
      have hs0 : (s : ℝ) ≠ 0 := ne_of_gt hs
      rcases eq_or_ne (latToY (clat + s) - latToY (clat - s)) 0 with hz | hz
      · rw [hz]
        simp
        exact Or.inr (Or.inl hz)
      · field_simp
    have ts : Tendsto (fun r : ℝ => r / 111320) (nhdsWithin 0 (Set.Ioi 0))
        (nhdsWithin 0 (Set.Ioi 0)) := by
      rw [tendsto_nhdsWithin_iff]
      constructor
      · have h0 : Tendsto (fun x : ℝ => x / 111320) (nhds 0) (nhds (0 / 111320)) :=
          tendsto_id.div_const 111320
        rw [zero_div] at h0
        exact h0.mono_left nhdsWithin_le_nhds
      · filter_upwards [self_mem_nhdsWithin] with r hr
        exact div_pos hr (by norm_num)
    have tcomp := tF.comp ts
    have key : Tendsto (fun r : ℝ => h - (latToY clat - latToY (clat - r / 111320)) /
        (latToY (clat + r / 111320) - latToY (clat - r / 111320)) * h)
        (nhdsWithin 0 (Set.Ioi 0)) (nhds (h - 1 / 2 * h)) :=
      tendsto_const_nhds.sub (tcomp.mul_const h)
    have hhalf : h - 1 / 2 * h = h / 2 := by ring
    rw [hhalf] at key
    refine key.congr fun r => ?_
    exact (createProjection_y clat clon r w h clat clon).symm

/-- Witness for C7 at the canvas dimensions of the source (900 × 1200) and
center (0, 0). -/
theorem createProjection_center_witness :
    (∀ r : ℝ, 0 < r → (createProjection 0 0 r 900 1200 0 0).1 = 900 / 2) ∧
    Tendsto (fun r => (createProjection 0 0 r 900 1200 0 0).2)
      (nhdsWithin 0 (Set.Ioi 0)) (nhds (1200 / 2)) :=
  createProjection_center 0 0 900 1200 (by norm_num) (by norm_num) (by norm_num) (by norm_num)
